import Mathlib

/-!
Verification of the Automa log-recovery pipeline (export-logs.js).

The two extractor classes operate on JavaScript strings, which are
sequences of UTF-16 code units.  We embed every string as a
`List Nat` of code units; a byte buffer is likewise a `List Nat`
(bytes 0..255), matching the fact that the carver builds strings with
String.fromCharCode, which maps a byte to the code unit of the same
value.  All functions are translated from the source file
src/export-logs.js; definitions whose doc comment says so are
spec-side restatements used to compare the code against the claims.
-/

/-- Code units of a Lean string literal, used to write concrete
JavaScript strings in theorems and word tables. -/
def S (s : String) : List Nat := s.data.map Char.toNat

/-- ASCII lower-casing of one code unit, the effect of
String.prototype.toLowerCase on the ASCII range (all strings the
pipeline manipulates are carved from printable ASCII). -/
def toLowerN (n : Nat) : Nat := if 65 ≤ n ∧ n ≤ 90 then n + 32 else n

/-- ASCII upper-casing of one code unit (toUpperCase on ASCII). -/
def toUpperN (n : Nat) : Nat := if 97 ≤ n ∧ n ≤ 122 then n - 32 else n

/-- str.toLowerCase() over the embedding. -/
def lowerS (s : List Nat) : List Nat := s.map toLowerN

/-- Regex class \d on a code unit. -/
def isDigitN (n : Nat) : Bool := 48 ≤ n && n ≤ 57

/-- Regex class [a-zA-Z] on a code unit. -/
def isAlphaN (n : Nat) : Bool := (65 ≤ n && n ≤ 90) || (97 ≤ n && n ≤ 122)

/-- Regex class [a-zA-Z0-9] on a code unit. -/
def isAlnumN (n : Nat) : Bool := isDigitN n || isAlphaN n

/-- Regex class \w = [A-Za-z0-9_] on a code unit. -/
def isWordN (n : Nat) : Bool := isAlnumN n || n == 95

/-- The JavaScript regex class \s (also the set String.prototype.trim
strips): tab, LF, VT, FF, CR, space, NBSP, Ogham space, the U+2000
block, LS, PS, NNBSP, MMSP, ideographic space and the BOM. -/
def isJsSpace (n : Nat) : Bool :=
  n == 9 || n == 10 || n == 11 || n == 12 || n == 13 || n == 32 ||
  n == 160 || n == 5760 || (8192 ≤ n && n ≤ 8202) ||
  n == 8232 || n == 8233 || n == 8239 || n == 8287 || n == 12288 || n == 65279

/-- Exact-prefix test: the first list read at the head of the second. -/
def leadEq : List Nat → List Nat → Bool
  | [], _ => true
  | _ :: _, [] => false
  | p :: ps, c :: cs => p == c && leadEq ps cs

/-- str.includes(pat): pat occurs contiguously somewhere in s. -/
def hasSub (pat : List Nat) : List Nat → Bool
  | [] => leadEq pat []
  | c :: cs => leadEq pat (c :: cs) || hasSub pat cs

/-- str.includes of a single character. -/
def hasChar (n : Nat) : List Nat → Bool
  | [] => false
  | c :: cs => c == n || hasChar n cs

/-- str.endsWith(pat) over the embedding. -/
def endsW (pat s : List Nat) : Bool := leadEq pat.reverse s.reverse

/-- Case-insensitive prefix test: the pattern is given in lower case
and compared against lower-cased text, as a /.../i regex does. -/
def leadEqCI : List Nat → List Nat → Bool
  | [], _ => true
  | _ :: _, [] => false
  | p :: ps, c :: cs => toLowerN c == p && leadEqCI ps cs

/-- One position of a /a|b|c/i regex: the alternatives are tried in
order; the matched text is taken from the original string (so keeps
its original case), as String.prototype.match returns it. -/
def altsAt : List (List Nat) → List Nat → Option (List Nat)
  | [], _ => none
  | a :: as, s => if leadEqCI a s then some (s.take a.length) else altsAt as s

/-- Leftmost-match scan of a position matcher over a string, the way
a regex engine advances one position at a time until a match. -/
def scanFor (f : List Nat → Option (List Nat)) : List Nat → Option (List Nat)
  | [] => f []
  | c :: cs =>
    match f (c :: cs) with
    | some r => some r
    | none => scanFor f cs

/-- str.match(/a|b|c/i): leftmost match, alternatives in order. -/
def firstAlt (alts : List (List Nat)) (s : List Nat) : Option (List Nat) :=
  scanFor (altsAt alts) s

/-- A word boundary \b holds before a position when the previous
character is absent or not a word character (our alternatives all
start with a word character). -/
def boundaryB : Option Nat → Bool
  | none => true
  | some c => !isWordN c

/-- A word boundary \b holds after an alternative of length k when the
character at offset k is absent or not a word character. -/
def boundaryAfter (a s : List Nat) : Bool :=
  match (s.drop a.length).head? with
  | none => true
  | some c => !isWordN c

/-- One position of a /\b(a|b|c)\b/i regex: each alternative must be a
case-insensitive prefix here and be followed by a word boundary. -/
def wordAltsHere : List (List Nat) → List Nat → Option (List Nat)
  | [], _ => none
  | a :: as, s =>
    if leadEqCI a s && boundaryAfter a s then some (s.take a.length)
    else wordAltsHere as s

/-- Leftmost-match scan for /\b(a|b|c)\b/i, tracking the previous
character to decide the leading word boundary. -/
def wordAltGo (alts : List (List Nat)) : Option Nat → List Nat → Option (List Nat)
  | _, [] => none
  | prev, c :: cs =>
    match (if boundaryB prev then wordAltsHere alts (c :: cs) else none) with
    | some r => some r
    | none => wordAltGo alts (some c) cs

/-- str.match(/\b(a|b|c)\b/i): leftmost whole-word match. -/
def wordAlt (alts : List (List Nat)) (s : List Nat) : Option (List Nat) :=
  wordAltGo alts none s

/-- Shape test for the two-digit-hour time pattern \d\d:\d\d:\d\d at
the head of the string. -/
def timeTwoB : List Nat → Bool
  | a :: b :: c :: d :: e :: f :: g :: h :: _ =>
    isDigitN a && isDigitN b && c == 58 && isDigitN d && isDigitN e &&
      f == 58 && isDigitN g && isDigitN h
  | _ => false

/-- Shape test for the one-digit-hour time pattern \d:\d\d:\d\d at the
head of the string. -/
def timeOneB : List Nat → Bool
  | a :: b :: c :: d :: e :: f :: g :: _ =>
    isDigitN a && b == 58 && isDigitN c && isDigitN d && e == 58 &&
      isDigitN f && isDigitN g
  | _ => false

/-- One position of /\d{1,2}:\d{2}:\d{2}/: the greedy quantifier tries
two leading digits first, then backtracks to one. -/
def timeAt (s : List Nat) : Option (List Nat) :=
  if timeTwoB s then some (s.take 8)
  else if timeOneB s then some (s.take 7) else none

/-- str.match(/\d{1,2}:\d{2}:\d{2}/): leftmost time-shaped substring. -/
def timeTok (s : List Nat) : Option (List Nat) := scanFor timeAt s

/-- Regex /[a-zA-Z]{3,}/.test: three consecutive ASCII letters occur. -/
def hasAlpha3 : List Nat → Bool
  | a :: b :: c :: rest =>
    (isAlphaN a && isAlphaN b && isAlphaN c) || hasAlpha3 (b :: c :: rest)
  | _ => false


/-- First step of cleanExtractedString, str.replace of one or more
null characters by a single space (regex null-run replacement); the
flag records whether the previous character was a null already part of
a replaced run. -/
def nulsGo : Bool → List Nat → List Nat
  | _, [] => []
  | prevNul, c :: cs =>
    if c == 0 then
      (if prevNul then nulsGo true cs else 32 :: nulsGo true cs)
    else c :: nulsGo false cs

/-- str.replace(null-run regex, one space) from cleanExtractedString. -/
def nulsToSpace (s : List Nat) : List Nat := nulsGo false s

/-- The character class the second replace of cleanExtractedString
removes: code units 1-8, 11, 12, 14-31 and 127-255. -/
def isStripN (n : Nat) : Bool :=
  (1 ≤ n && n ≤ 8) || n == 11 || n == 12 || (14 ≤ n && n ≤ 31) ||
    (127 ≤ n && n ≤ 255)

/-- str.replace of whitespace runs by a single space; the flag records
whether the previous character belonged to the run being replaced. -/
def wsGo : Bool → List Nat → List Nat
  | _, [] => []
  | inRun, c :: cs =>
    if isJsSpace c then
      (if inRun then wsGo true cs else 32 :: wsGo true cs)
    else c :: wsGo false cs

/-- str.replace(whitespace-run regex, one space). -/
def wsCollapse (s : List Nat) : List Nat := wsGo false s

/-- String.prototype.trim over the embedding. -/
def trimJs (s : List Nat) : List Nat :=
  ((s.dropWhile isJsSpace).reverse.dropWhile isJsSpace).reverse

/-- ImprovedLevelDBExtractor.cleanExtractedString: null runs become a
space, binary artifact characters are dropped, whitespace runs
collapse to one space, the string is trimmed, non-alphanumeric leading
and trailing characters are stripped, and the result is kept only when
longer than two characters (null is returned otherwise). -/
def cleanExtractedString (s : List Nat) : Option (List Nat) :=
  let c1 := nulsToSpace s
  let c2 := c1.filter (fun c => !isStripN c)
  let c3 := wsCollapse c2
  let c4 := trimJs c3
  let c5 := c4.dropWhile (fun c => !isAlnumN c)
  let c6 := (c5.reverse.dropWhile (fun c => !isAlnumN c)).reverse
  let c7 := trimJs c6
  if 2 < c7.length then some c7 else none

/-- The automaTerms table of isValidLogData, exactly as the source
lists it, including the two entries logId and workflowId that carry an
upper-case letter. -/
def automaTerms : List (List Nat) :=
  [S "trigger", S "click", S "type", S "typing", S "navigate", S "wait",
   S "scroll", S "workflow", S "tab", S "element", S "success", S "failed",
   S "error", S "started", S "completed", S "new tab", S "close", S "reload",
   S "typing_five", S "logId", S "workflowId", S "status", S "message"]

/-- The log-level word list of the hasLogPattern check. -/
def logLevelWords : List (List Nat) :=
  [S "success", S "failed", S "error", S "warning", S "info", S "debug"]

/-- ImprovedLevelDBExtractor.isValidLogData: the relevance gate over a
cleaned string. -/
def isValidLogData (s : List Nat) : Bool :=
  if s.length < 3 then false
  else
    let lowerStr := lowerS s
    let hasAutomaTerms := automaTerms.any (fun t => hasSub t lowerStr)
    let hasTimePattern := (timeTok s).isSome
    let hasLogPattern := (wordAlt logLevelWords s).isSome
    let hasJSONLike := hasChar 123 s || hasChar 34 s || hasChar 58 s
    let hasAlphabetic := hasAlpha3 s
    hasAlphabetic && (hasAutomaTerms || hasTimePattern || hasLogPattern || hasJSONLike)

/-- A byte the improved extractor treats as printable: printable ASCII
32-126 or tab, LF, CR. -/
def printableByte (b : Nat) : Bool :=
  (32 ≤ b && b ≤ 126) || b == 9 || b == 10 || b == 13

/-- A byte the simple extractor treats as printable: 32-126 only. -/
def printableAscii (b : Nat) : Bool := 32 ≤ b && b ≤ 126

/-- Cleaning and gating of one carved run, the body of the push sites
of extractCleanStrings. -/
def processRun (r : List Nat) : Option (List Nat) :=
  match cleanExtractedString r with
  | some c => if isValidLogData c then some c else none
  | none => none

/-- The scanning loop of extractCleanStrings: the accumulator is the
current run of printable bytes; a run ending at a non-printable byte
or at the end of the buffer is processed when at least 3 bytes long. -/
def carveGo : List Nat → List Nat → List (List Nat)
  | [], cur => if 3 ≤ cur.length then (processRun cur).toList else []
  | b :: bs, cur =>
    if printableByte b then carveGo bs (cur ++ [b])
    else (if 3 ≤ cur.length then (processRun cur).toList else []) ++ carveGo bs []

/-- ImprovedLevelDBExtractor.extractCleanStrings over a byte buffer. -/
def extractCleanStrings (buffer : List Nat) : List (List Nat) :=
  carveGo buffer []

/-- The scanning loop of SimpleAutomaExtractor.extractStringsFromBuffer:
printable ASCII runs strictly longer than 3 are collected. -/
def carveSimpleGo : List Nat → List Nat → List (List Nat)
  | [], cur => if 3 < cur.length then [cur] else []
  | b :: bs, cur =>
    if printableAscii b then carveSimpleGo bs (cur ++ [b])
    else (if 3 < cur.length then [cur] else []) ++ carveSimpleGo bs []

/-- SimpleAutomaExtractor.extractStringsFromBuffer: collected runs are
then filtered to those containing one of four keywords
(case-sensitive includes). -/
def extractStringsFromBuffer (buffer : List Nat) : List (List Nat) :=
  (carveSimpleGo buffer []).filter
    (fun s => hasSub (S "workflow") s || hasSub (S "typing") s ||
      hasSub (S "trigger") s || hasSub (S "click") s)

/-- The action alternation of extractStructuredData, regex
/trigger|click|type|navigate|wait|scroll|tab|element/i. -/
def actionWords : List (List Nat) :=
  [S "trigger", S "click", S "type", S "navigate", S "wait", S "scroll",
   S "tab", S "element"]

/-- The status alternation of extractStructuredData, regex
/success|failed|error|completed|started/i. -/
def statusWords : List (List Nat) :=
  [S "success", S "failed", S "error", S "completed", S "started"]

/-- One position of /typing[_\w]*|workflow[_\w]*/i: a keyword followed
by a greedy run of word characters. -/
def wfAt (s : List Nat) : Option (List Nat) :=
  if leadEqCI (S "typing") s then
    some (s.take 6 ++ (s.drop 6).takeWhile isWordN)
  else if leadEqCI (S "workflow") s then
    some (s.take 8 ++ (s.drop 8).takeWhile isWordN)
  else none

/-- str.match(/typing[_\w]*|workflow[_\w]*/i): the workflow token. -/
def workflowTok (s : List Nat) : Option (List Nat) := scanFor wfAt s

/-- The log_entry record extractStructuredData pushes: the four
optional tokens (empty when their regex did not match) and the raw
string. -/
structure LogParts where
  workflow : List Nat
  action : List Nat
  status : List Nat
  time : List Nat
  raw : List Nat
deriving DecidableEq

/-- The token-matching half of extractStructuredData on one string: a
log_entry record is produced exactly when at least one of the four
regexes matched. -/
def recoverLog (s : List Nat) : Option LogParts :=
  let w := workflowTok s
  let a := firstAlt actionWords s
  let st := firstAlt statusWords s
  let t := timeTok s
  if w.isSome || a.isSome || st.isSome || t.isSome then
    some { workflow := w.getD (S "Unknown"), action := a.getD [],
           status := st.getD [], time := t.getD [], raw := s }
  else none

/-- A parsed JSON object as the humanizer consumes it: the four fields
convertToHumanReadable reads, each an optional string (absent fields
and fields of other types are modelled as none). -/
structure JsonObj where
  name : Option (List Nat)
  workflowId : Option (List Nat)
  message : Option (List Nat)
  status : Option (List Nat)
deriving DecidableEq

/-- A structured entry: a JSON fragment (parsed object plus the raw
matched text) or a log_entry of matched tokens. -/
inductive SEntry where
  | json (data : JsonObj) (raw : List Nat)
  | log (e : LogParts)
deriving DecidableEq

/-- The body of containsWorkflowData applied to an already serialized
object: the lower-cased text contains one of five keywords. -/
def containsWorkflowKeyword (s : List Nat) : Bool :=
  let l := lowerS s
  hasSub (S "workflow") l || hasSub (S "trigger") l || hasSub (S "typing") l ||
    hasSub (S "logid") l || hasSub (S "workflowid") l

/-- The global scan of regex /\x7b[^\x7b\x7d]*\x7d/g: every substring
that is an opening brace, a run of non-brace characters and a closing
brace, taken left to right without overlap.  The accumulator holds the
body (reversed) collected since the last unconsumed opening brace; a
second opening brace restarts the body, matching the backtracking
behaviour of the regex. -/
def braceScanGo : List Nat → Option (List Nat) → List (List Nat)
  | [], _ => []
  | c :: cs, none =>
    if c == 123 then braceScanGo cs (some []) else braceScanGo cs none
  | c :: cs, some acc =>
    if c == 125 then (123 :: acc.reverse ++ [125]) :: braceScanGo cs none
    else if c == 123 then braceScanGo cs (some [])
    else braceScanGo cs (some (c :: acc))

/-- str.match(/\x7b[^\x7b\x7d]*\x7d/g) over the embedding. -/
def braceScan (s : List Nat) : List (List Nat) := braceScanGo s none

/-- The JSON half of extractStructuredData on one string.  JSON.parse
and JSON.stringify are platform builtins, not code of this repository:
they are abstracted as an oracle that, for a candidate substring,
returns the parsed object together with its serialization (none models
a parse failure, which the code swallows).  A parsed fragment is kept
only when its serialization passes containsWorkflowData. -/
def jsonEntriesOf (jparse : List Nat → Option (JsonObj × List Nat))
    (s : List Nat) : List SEntry :=
  if hasChar 123 s && hasChar 125 s then
    (braceScan s).filterMap (fun m =>
      match jparse m with
      | some (d, ser) =>
        if containsWorkflowKeyword ser then some (SEntry.json d m) else none
      | none => none)
  else []

/-- ImprovedLevelDBExtractor.extractStructuredData over a list of
cleaned strings: per string, the JSON fragments first, then the
log_entry record when some token matched. -/
def extractStructuredData (jparse : List Nat → Option (JsonObj × List Nat))
    (strings : List (List Nat)) : List SEntry :=
  (strings.map (fun s =>
    jsonEntriesOf jparse s ++ ((recoverLog s).toList.map SEntry.log))).flatten

/-- ImprovedLevelDBExtractor.humanizeAction: the fixed action-to-phrase
table, unknown actions passed through unchanged. -/
def humanizeAction (a : List Nat) : List Nat :=
  let l := lowerS a
  if l = S "trigger" then S "Started workflow"
  else if l = S "click" then S "Clicked element"
  else if l = S "type" then S "Typed text"
  else if l = S "typing" then S "Typed text"
  else if l = S "navigate" then S "Navigated to page"
  else if l = S "wait" then S "Waited"
  else if l = S "scroll" then S "Scrolled page"
  else if l = S "tab" then S "Opened tab"
  else if l = S "element" then S "Interacted with element"
  else a

/-- The replace(/\b\w/g, upper-case) step of cleanWorkflowName: a word
character at a word boundary is upper-cased; the flag records whether
the previous character was a word character. -/
def upWordsGo : Bool → List Nat → List Nat
  | _, [] => []
  | prevW, c :: cs =>
    (if isWordN c && !prevW then toUpperN c else c) :: upWordsGo (isWordN c) cs

/-- ImprovedLevelDBExtractor.cleanWorkflowName: empty or Unknown
becomes Unknown Workflow; otherwise underscores and hyphens become
spaces, word starts are upper-cased and the result is trimmed. -/
def cleanWorkflowName (name : List Nat) : List Nat :=
  if name = [] ∨ name = S "Unknown" then S "Unknown Workflow"
  else trimJs (upWordsGo false
    (name.map (fun c => if c == 95 || c == 45 then 32 else c)))

/-- The replace(/^\d+\s*/, empty) step of cleanLogEntry: when the
string starts with a digit, the leading digit run and any following
whitespace are dropped. -/
def stripLeadDigits (s : List Nat) : List Nat :=
  match s with
  | c :: _ =>
    if isDigitN c then (s.dropWhile isDigitN).dropWhile isJsSpace else s
  | [] => []

/-- The replace(/^./, upper-case) step of cleanLogEntry: the regex dot
does not match a line terminator, so such a first character stays. -/
def upFirst : List Nat → List Nat
  | [] => []
  | c :: cs =>
    if c == 10 || c == 13 || c == 8232 || c == 8233 then c :: cs
    else toUpperN c :: cs

/-- ImprovedLevelDBExtractor.cleanLogEntry: leading digits go,
whitespace collapses, the string is trimmed and its first character is
upper-cased. -/
def cleanLogEntry (e : List Nat) : List Nat :=
  upFirst (trimJs (wsCollapse (stripLeadDigits e)))

/-- A readable record: workflow name and log text. -/
structure Readable where
  workflow : List Nat
  log : List Nat
deriving DecidableEq

/-- The workflow-name selection of convertToHumanReadable for a JSON
entry: starting from Unknown, a truthy (non-empty) name field
overwrites it, then a truthy workflowId field overwrites that. -/
def pickWorkflow (d : JsonObj) : List Nat :=
  let w := S "Unknown"
  let w := match d.name with
    | some n => if n ≠ [] then n else w
    | none => w
  match d.workflowId with
  | some i => if i ≠ [] then i else w
  | none => w

/-- The log-text construction of convertToHumanReadable for a JSON
entry: a truthy message seeds the text, a truthy status appends an
open parenthesis segment. -/
def jsonReadable (d : JsonObj) : List Nat :=
  let r : List Nat := []
  let r := match d.message with
    | some m => if m ≠ [] then m else r
    | none => r
  match d.status with
  | some st => if st ≠ [] then r ++ S " (" ++ st ++ S ")" else r
  | none => r

/-- String.prototype.flatten with a single space separator. -/
def joinSpace : List (List Nat) → List Nat
  | [] => []
  | [x] => x
  | x :: y :: rest => x ++ 32 :: joinSpace (y :: rest)

/-- convertToHumanReadable on one JSON entry: the record is pushed
only when the readable text is non-empty. -/
def humanizeJson (d : JsonObj) : Option Readable :=
  let readable := jsonReadable d
  if readable ≠ [] then
    some ⟨cleanWorkflowName (pickWorkflow d), cleanLogEntry readable⟩
  else none

/-- convertToHumanReadable on one log_entry: the parts present among
the time, the humanized action and the status are joined with spaces;
an empty join falls back to the raw string. -/
def humanizeLog (e : LogParts) : Option Readable :=
  let workflow := if e.workflow ≠ [] then e.workflow else S "Unknown"
  let parts :=
    (if e.time ≠ [] then [S "at " ++ e.time] else []) ++
    (if e.action ≠ [] then [humanizeAction e.action] else []) ++
    (if e.status ≠ [] then [S "- " ++ e.status] else [])
  let readable := if joinSpace parts ≠ [] then joinSpace parts else e.raw
  if readable ≠ [] then
    some ⟨cleanWorkflowName workflow, cleanLogEntry readable⟩
  else none

/-- One structured entry humanized. -/
def humanizeEntry : SEntry → Option Readable
  | .json d _ => humanizeJson d
  | .log e => humanizeLog e

/-- ImprovedLevelDBExtractor.convertToHumanReadable. -/
def convertToHumanReadable (es : List SEntry) : List Readable :=
  es.filterMap humanizeEntry

/-- log.includes of comma, newline or double quote: the needsQuotes
test of both saveToCSV methods. -/
def needsQuotesB (s : List Nat) : Bool :=
  hasChar 44 s || hasChar 10 s || hasChar 34 s

/-- log.replace(/"/g, two quotes): every double quote doubled. -/
def dblQuotes : List Nat → List Nat
  | [] => []
  | c :: cs => if c == 34 then 34 :: 34 :: dblQuotes cs else c :: dblQuotes cs

/-- The logValue computation of saveToCSV: the escaped text, wrapped
in double quotes when the original contains a comma, newline or
quote. -/
def csvEscape (s : List Nat) : List Nat :=
  let escaped := dblQuotes s
  if needsQuotesB s then 34 :: escaped ++ [34] else escaped

/-- The template-quoted fields of saveToCSV: the raw value wrapped in
double quotes with no escaping. -/
def quoteWrap (s : List Nat) : List Nat := 34 :: s ++ [34]

/-- The \b-guarded action alternation of both saveToCSV row loops,
regex /\b(clicked|typed|navigated|waited|scrolled|started|opened)\b/i. -/
def csvActionWords : List (List Nat) :=
  [S "clicked", S "typed", S "navigated", S "waited", S "scrolled",
   S "started", S "opened"]

/-- The status a saveToCSV row derives from the log text. -/
def deriveStatus (log : List Nat) : List Nat :=
  (wordAlt statusWords log).getD (S "info")

/-- The action a saveToCSV row derives from the log text. -/
def deriveAction (log : List Nat) : List Nat :=
  (wordAlt csvActionWords log).getD (S "action")

/-- The fields of one row of a per-workflow enriched CSV file, in
order: quoted write-time timestamp, quoted workflow name, quoted
derived action, quoted derived status.  now stands for the value of
new Date().toISOString() at the moment the row is built. -/
def enrichedFields (now name log : List Nat) : List (List Nat) :=
  [quoteWrap now, quoteWrap name, quoteWrap (deriveAction log),
   quoteWrap (deriveStatus log)]

/-- The fields of one row of the combined CSV file, in order: quoted
write-time timestamp, quoted workflow name, escaped log text, quoted
derived action, quoted derived status. -/
def combinedFields (now : List Nat) (r : Readable) : List (List Nat) :=
  [quoteWrap now, quoteWrap r.workflow, csvEscape r.log,
   quoteWrap (deriveAction r.log), quoteWrap (deriveStatus r.log)]

/-- Fields joined with commas into one CSV line body. -/
def joinComma : List (List Nat) → List Nat
  | [] => []
  | [x] => x
  | x :: y :: rest => x ++ 44 :: joinComma (y :: rest)

/-- One line of a per-workflow enriched CSV file, newline included. -/
def enrichedLine (now name log : List Nat) : List Nat :=
  joinComma (enrichedFields now name log) ++ [10]

/-- One line of the combined CSV file, newline included. -/
def combinedLine (now : List Nat) (r : Readable) : List Nat :=
  joinComma (combinedFields now r) ++ [10]

/-- The grouping step of saveToCSV: insertion into an association list
keyed by workflow name, first-encounter key order, encounter order
within a group (JavaScript object key insertion semantics for string
keys). -/
def groupAdd : List (List Nat × List (List Nat)) → Readable →
    List (List Nat × List (List Nat))
  | [], r =>
    [(if r.workflow = [] then S "Unknown Workflow" else r.workflow, [r.log])]
  | (k, v) :: rest, r =>
    if k = (if r.workflow = [] then S "Unknown Workflow" else r.workflow)
    then (k, v ++ [r.log]) :: rest
    else (k, v) :: groupAdd rest r

/-- readableData grouped by workflow name as saveToCSV builds it. -/
def groupByWorkflow (rs : List Readable) :
    List (List Nat × List (List Nat)) :=
  rs.foldl groupAdd []

/-- The filename sanitization of the improved saveToCSV: characters
outside [a-zA-Z0-9_\s-] become underscores; the result is truncated to
30 characters. -/
def sanitizeName (n : List Nat) : List Nat :=
  (n.map (fun c =>
    if isAlnumN c || c == 95 || c == 45 || isJsSpace c then c else 95)).take 30

/-- One per-workflow enriched CSV file of saveToCSV: its name embeds
the sanitized workflow name and the run date, its content is the
header line followed by one row per grouped log. -/
def enrichedFile (now dateStr : List Nat)
    (g : List Nat × List (List Nat)) : List Nat × List Nat :=
  (sanitizeName g.1 ++ S "_" ++ dateStr ++ S ".csv",
   S "timestamp,workflow_name,action,status" ++ [10] ++
     (g.2.map (enrichedLine now g.1)).flatten)

/-- The combined CSV file of saveToCSV. -/
def combinedFile (now dateStr : List Nat) (rs : List Readable) :
    List Nat × List Nat :=
  (S "all_workflows_" ++ dateStr ++ S ".csv",
   S "timestamp,workflow_name,log_entry,action,status" ++ [10] ++
     (rs.map (combinedLine now)).flatten)

/-- ImprovedLevelDBExtractor.saveToCSV: nothing is written when there
is no structured data or no readable data; otherwise one enriched file
per workflow group plus the combined file, as (name, content) pairs. -/
def saveToCSV (entries : List SEntry) (now dateStr : List Nat) :
    List (List Nat × List Nat) :=
  if entries = [] then []
  else
    let readable := convertToHumanReadable entries
    if readable = [] then []
    else
      (groupByWorkflow readable).map (enrichedFile now dateStr) ++
        [combinedFile now dateStr readable]

/-- A directory entry of an extension database directory. -/
structure FileEnt where
  fname : List Nat
  isFile : Bool
  content : List Nat
deriving DecidableEq

/-- A Chrome profile as the discovery phase sees it: whether
Default/IndexedDB exists, and the named entries inside it, each with
the files it contains. -/
structure ProfileM where
  hasIdb : Bool
  idbEntries : List (List Nat × List FileEnt)
deriving DecidableEq

/-- The filesystem surface run() explores: the first existing Chrome
profile, if any (findChromeProfiles returns at most the first hit). -/
structure WorldM where
  profile : Option ProfileM
deriving DecidableEq

/-- ImprovedLevelDBExtractor.findChromeProfiles over the model. -/
def findChromeProfiles (w : WorldM) : List ProfileM := w.profile.toList

/-- ImprovedLevelDBExtractor.findIndexedDBDirs: the profiles whose
Default/IndexedDB directory exists, each as its entry listing. -/
def findIndexedDBDirs (ps : List ProfileM) :
    List (List (List Nat × List FileEnt)) :=
  (ps.filter (·.hasIdb)).map (·.idbEntries)

/-- The table-directory naming convention of findAutomaExtensions. -/
def tableDirName (n : List Nat) : Bool :=
  leadEq (S "chrome-extension_") n && endsW (S ".indexeddb.leveldb") n

/-- ImprovedLevelDBExtractor.findAutomaExtensions: within each
IndexedDB listing, the entries matching the naming convention. -/
def findAutomaExtensions (idbs : List (List (List Nat × List FileEnt))) :
    List (List FileEnt) :=
  (idbs.map (fun entries =>
    (entries.filter (fun e => tableDirName e.1)).map (·.2))).flatten

/-- The file filter of extractWorkflowData: regular files ending in
.log or .ldb, or named CURRENT or MANIFEST-000001. -/
def targetFile (f : FileEnt) : Bool :=
  f.isFile && (endsW (S ".log") f.fname || endsW (S ".ldb") f.fname ||
    f.fname == S "CURRENT" || f.fname == S "MANIFEST-000001")

/-- ImprovedLevelDBExtractor.extractWorkflowData: every structured
entry recovered from the target files of every extension directory. -/
def extractWorkflowData (jparse : List Nat → Option (JsonObj × List Nat))
    (dirs : List (List FileEnt)) : List SEntry :=
  (dirs.map (fun files =>
    ((files.filter targetFile).map (fun f =>
      extractStructuredData jparse (extractCleanStrings f.content))).flatten)).flatten

/-- The outcome of one run: a normal return carrying the files
written, or a propagated exception (non-zero exit). -/
inductive RunOut where
  | ok (files : List (List Nat × List Nat))
  | err (msg : List Nat)
deriving DecidableEq

/-- The process exit code the outcome produces: a rejected promise
exits 1, a normal return 0. -/
def exitCode : RunOut → Nat
  | .ok _ => 0
  | .err _ => 1

/-- ImprovedLevelDBExtractor.run: each discovery miss returns normally
with nothing written; only a complete pipeline reaches saveToCSV. -/
def run (jparse : List Nat → Option (JsonObj × List Nat)) (w : WorldM)
    (now dateStr : List Nat) : RunOut :=
  let profiles := findChromeProfiles w
  if profiles = [] then .ok []
  else
    let idbs := findIndexedDBDirs profiles
    if idbs = [] then .ok []
    else
      let auts := findAutomaExtensions idbs
      if auts = [] then .ok []
      else
        let sd := extractWorkflowData jparse auts
        if sd = [] then .ok []
        else .ok (saveToCSV sd now dateStr)

/-- Spec-side: the maximal runs of p-bytes in a buffer, bounded by
non-p bytes or the buffer edges, in order; the accumulator is the run
open at the current position. -/
def runsAllGo (p : Nat → Bool) : List Nat → List Nat → List (List Nat)
  | [], cur => if cur = [] then [] else [cur]
  | b :: bs, cur =>
    if p b then runsAllGo p bs (cur ++ [b])
    else (if cur = [] then [] else [cur]) ++ runsAllGo p bs []

/-- Spec-side: all maximal printable runs of a buffer. -/
def runsAll (p : Nat → Bool) (buffer : List Nat) : List (List Nat) :=
  runsAllGo p buffer []

/-- Spec-side, from claim C3: the carved output the claim asserts, the
maximal printable runs of length at least minLength, verbatim. -/
def claimedCarve (buffer : List Nat) : List (List Nat) :=
  (runsAll printableByte buffer).filter (fun r => 3 ≤ r.length)

/-- Spec-side, from claim C4: the vocabulary the claim lists for the
relevance gate. -/
def claimedTerms : List (List Nat) :=
  [S "trigger", S "click", S "type", S "typing", S "navigate", S "wait",
   S "scroll", S "tab", S "element", S "success", S "failed", S "error",
   S "started", S "completed", S "logid", S "workflowid", S "status",
   S "message"]

/-- Spec-side, from claim C4: the acceptance condition the claim
states, with its own keyword vocabulary. -/
def claimedGate (s : List Nat) : Bool :=
  hasAlpha3 s &&
    (claimedTerms.any (fun t => hasSub t (lowerS s)) ||
      (timeTok s).isSome || (wordAlt logLevelWords s).isSome ||
      hasChar 123 s || hasChar 34 s || hasChar 58 s)

/-- Amended C4: the vocabulary that can actually fire: the automaTerms
table without its two entries carrying an upper-case letter, which can
never occur in a lower-cased string. -/
def effectiveTerms : List (List Nat) :=
  [S "trigger", S "click", S "type", S "typing", S "navigate", S "wait",
   S "scroll", S "workflow", S "tab", S "element", S "success", S "failed",
   S "error", S "started", S "completed", S "new tab", S "close", S "reload",
   S "typing_five", S "status", S "message"]

/-- Amended C4: the acceptance condition with the effective
vocabulary. -/
def amendedGate (s : List Nat) : Bool :=
  hasAlpha3 s &&
    (effectiveTerms.any (fun t => hasSub t (lowerS s)) ||
      (timeTok s).isSome || (wordAlt logLevelWords s).isSome ||
      hasChar 123 s || hasChar 34 s || hasChar 58 s)

/-- Spec-side, from claim C5: the action the claim says an enriched
row derives, using the action word list of the Structured Recoverer. -/
def claimedActionOf (log : List Nat) : List Nat :=
  (firstAlt actionWords log).getD (S "action")

/-- Spec-side, from claim C7: one or more nulls collapse to a single
null; two strings with the same collapse differ only in the lengths of
their null runs. -/
def collapseNulsGo : Bool → List Nat → List Nat
  | _, [] => []
  | prevNul, c :: cs =>
    if c == 0 then
      (if prevNul then collapseNulsGo true cs else 0 :: collapseNulsGo true cs)
    else c :: collapseNulsGo false cs

/-- Spec-side: maximal null runs collapsed to one null each. -/
def collapseNuls (s : List Nat) : List Nat := collapseNulsGo false s

/-- Spec-side: the non-null characters of a string; two strings differ
only by embedded null bytes exactly when these agree. -/
def removeNuls (s : List Nat) : List Nat := s.filter (fun c => c ≠ 0)

/-- Spec-side: the body of a quoted CSV field under standard quoting
rules: characters up to an unpaired closing quote, a doubled quote
standing for one literal quote; the input must end exactly at the
closing quote. -/
def quotedBody : List Nat → Option (List Nat)
  | [] => none
  | c :: cs =>
    if c == 34 then
      match cs with
      | [] => some []
      | d :: ds =>
        if d == 34 then (quotedBody ds).map (fun r => 34 :: r)
        else none
    else (quotedBody cs).map (fun r => c :: r)

/-- Spec-side: parsing one emitted CSV field under the standard
quoting rules of the comma-separated, LF-terminated, double-quoted
format the serializer emits: a field starting with a quote is read as
a quoted body; any other field is valid only when it contains no
comma, quote or newline, and denotes itself. -/
def csvParseField : List Nat → Option (List Nat)
  | [] => some []
  | c :: rest =>
    if c == 34 then quotedBody rest
    else if hasChar 44 (c :: rest) || hasChar 34 (c :: rest) ||
        hasChar 10 (c :: rest) then none
    else some (c :: rest)

/-- The C1 input string. -/
def c1str : List Nat := S "Workflow started at 10:15:42 - success"

/-- The trivial JSON oracle: the C1 string holds no brace, so the
JSON half of the recoverer is inert whatever the oracle. -/
def jparseNone : List Nat → Option (JsonObj × List Nat) := fun _ => none

/-! Helper lemmas shared by the claim theorems. -/

/-- An exact prefix test against a string with no upper-case ASCII
letter fails whenever the pattern carries one. -/
theorem leadEq_eq_false (pat : List Nat) :
    ∀ l : List Nat, (∃ p ∈ pat, 65 ≤ p ∧ p ≤ 90) →
      (∀ c ∈ l, ¬(65 ≤ c ∧ c ≤ 90)) → leadEq pat l = false := by
  induction pat with
  | nil =>
    intro l hp _
    obtain ⟨p, hmem, _⟩ := hp
    exact absurd hmem (List.not_mem_nil p)
  | cons p ps ih =>
    intro l hp hl
    cases l with
    | nil => rfl
    | cons c cs =>
      simp only [leadEq, Bool.and_eq_false_iff]
      by_cases hpc : p = c
      · subst hpc
        obtain ⟨q, hqmem, hq⟩ := hp
        rcases List.mem_cons.mp hqmem with hq1 | hq2
        · exact absurd (hq1 ▸ hq) (hl p (List.mem_cons_self p cs))
        · exact Or.inr (ih cs ⟨q, hq2, hq⟩
            (fun d hd => hl d (List.mem_cons_of_mem p hd)))
      · exact Or.inl (by simp [hpc])

/-- Substring search for a pattern with an upper-case letter fails in
a string with no upper-case letter. -/
theorem hasSub_eq_false (pat l : List Nat)
    (hp : ∃ p ∈ pat, 65 ≤ p ∧ p ≤ 90)
    (hl : ∀ c ∈ l, ¬(65 ≤ c ∧ c ≤ 90)) : hasSub pat l = false := by
  induction l with
  | nil => simpa [hasSub] using leadEq_eq_false pat [] hp (by simp)
  | cons c cs ih =>
    simp only [hasSub, Bool.or_eq_false_iff]
    refine ⟨leadEq_eq_false pat (c :: cs) hp hl, ?_⟩
    exact ih (fun d hd => hl d (List.mem_cons_of_mem c hd))

/-- A lower-cased string holds no upper-case ASCII letter. -/
theorem lowerS_no_upper (s : List Nat) :
    ∀ c ∈ lowerS s, ¬(65 ≤ c ∧ c ≤ 90) := by
  intro c hc
  obtain ⟨m, _, hm⟩ := List.mem_map.mp hc
  subst hm
  unfold toLowerN
  split <;> omega

/-- The automaTerms entry logId never fires on a lower-cased string. -/
theorem hasSub_logId (s : List Nat) :
    hasSub (S "logId") (lowerS s) = false :=
  hasSub_eq_false _ _ ⟨73, by decide, by decide⟩ (lowerS_no_upper s)

/-- The automaTerms entry workflowId never fires on a lower-cased
string. -/
theorem hasSub_workflowId (s : List Nat) :
    hasSub (S "workflowId") (lowerS s) = false :=
  hasSub_eq_false _ _ ⟨73, by decide, by decide⟩ (lowerS_no_upper s)

/-- Three consecutive letters need three characters. -/
theorem hasAlpha3_length (s : List Nat) (h : hasAlpha3 s = true) :
    3 ≤ s.length := by
  match s with
  | [] => simp [hasAlpha3] at h
  | [a] => simp [hasAlpha3] at h
  | [a, b] => simp [hasAlpha3] at h
  | a :: b :: c :: r => simp

/-- Emitting one closed run in extractCleanStrings agrees with
filtering and processing that run on the spec side. -/
theorem emitRun_eq (cur : List Nat) :
    (if 3 ≤ cur.length then (processRun cur).toList else []) =
      ((if cur = [] then [] else [cur]).filter
        (fun r => 3 ≤ r.length)).filterMap processRun := by
  by_cases hc : cur = []
  · subst hc; simp
  · by_cases hl : 3 ≤ cur.length
    · simp only [if_pos hl, hc, if_neg, ite_false, List.filter_cons,
        List.filter_nil]
      rw [if_pos (by simpa using hl)]
      cases h : processRun cur <;> simp [h]
    · simp [hc, hl]

/-- The carving loop of extractCleanStrings is the maximal-run scan
followed by the length filter and per-run processing. -/
theorem carveGo_eq (bs : List Nat) : ∀ cur : List Nat,
    carveGo bs cur =
      ((runsAllGo printableByte bs cur).filter
        (fun r => 3 ≤ r.length)).filterMap processRun := by
  induction bs with
  | nil =>
    intro cur
    simpa [carveGo, runsAllGo] using emitRun_eq cur
  | cons b bs ih =>
    intro cur
    by_cases hp : printableByte b
    · simp [carveGo, runsAllGo, hp, ih]
    · simp only [carveGo, runsAllGo, hp, Bool.false_eq_true, if_neg,
        ite_false, List.filter_append, List.filterMap_append, ih []]
      rw [emitRun_eq cur]

/-- The carving loop of extractStringsFromBuffer is the maximal-run
scan followed by the strict length filter. -/
theorem carveSimpleGo_eq (bs : List Nat) : ∀ cur : List Nat,
    carveSimpleGo bs cur =
      (runsAllGo printableAscii bs cur).filter (fun r => 3 < r.length) := by
  induction bs with
  | nil =>
    intro cur
    by_cases hc : cur = []
    · subst hc; simp [carveSimpleGo, runsAllGo]
    · by_cases hl : 3 < cur.length <;>
        simp [carveSimpleGo, runsAllGo, hc, hl]
  | cons b bs ih =>
    intro cur
    by_cases hp : printableAscii b
    · simp [carveSimpleGo, runsAllGo, hp, ih]
    · by_cases hc : cur = []
      · subst hc
        simp [carveSimpleGo, runsAllGo, hp, ih []]
      · by_cases hl : 3 < cur.length <;>
          simp [carveSimpleGo, runsAllGo, hp, hc, hl, List.filter_append, ih []]

/-- Replacing null runs by spaces is unchanged by first collapsing
each null run to a single null. -/
theorem nulsGo_collapse (s : List Nat) : ∀ p : Bool,
    nulsGo p (collapseNulsGo p s) = nulsGo p s := by
  induction s with
  | nil => intro p; rfl
  | cons c cs ih =>
    intro p
    by_cases hc : c = 0
    · subst hc
      cases p <;> simp [collapseNulsGo, nulsGo, ih]
    · simp [collapseNulsGo, nulsGo, hc, ih]

/-! Claim theorems. -/


/-- Claim C1 is false as stated: on the input string the status
alternation matches the leftmost status word, which is started (at
offset 9), not success (at offset 31), and the combined-file row
derives status started, not success. -/
theorem c1_counterexample :
    (recoverLog c1str).map LogParts.status = some (S "started") ∧
    S "started" ≠ S "success" ∧
    (convertToHumanReadable (extractStructuredData jparseNone [c1str])).map
        (fun r => deriveStatus r.log) = [S "started"] := by
  refine ⟨by decide, by decide, by decide⟩

/-- Claim C1 amended: the time token 10:15:42 is captured, the status
token captured is started (the leftmost match), no action token
matches, and the combined-file row carries status started whatever
the write-time timestamp. -/
theorem c1_theorem (now : List Nat) :
    recoverLog c1str =
      some ⟨S "Workflow", [], S "started", S "10:15:42", c1str⟩ ∧
    convertToHumanReadable (extractStructuredData jparseNone [c1str]) =
      [⟨S "Workflow", S "At 10:15:42 - started"⟩] ∧
    combinedFields now ⟨S "Workflow", S "At 10:15:42 - started"⟩ =
      [quoteWrap now, quoteWrap (S "Workflow"), S "At 10:15:42 - started",
       quoteWrap (S "started"), quoteWrap (S "started")] := by
  have hst : deriveStatus (S "At 10:15:42 - started") = S "started" := by decide
  have hac : deriveAction (S "At 10:15:42 - started") = S "started" := by decide
  have hes : csvEscape (S "At 10:15:42 - started") =
      S "At 10:15:42 - started" := by decide
  exact ⟨by decide, by decide, by simp [combinedFields, hst, hac, hes]⟩

/-- Claim C5 is false as stated: a log text consisting of the
recoverer action word trigger derives the default action, not
trigger, because the row loops use the past-tense alternation. -/
theorem c5_counterexample :
    deriveAction (S "trigger") = S "action" ∧
    claimedActionOf (S "trigger") = S "trigger" ∧
    (S "action" : List Nat) ≠ S "trigger" := by
  refine ⟨by decide, by decide, by decide⟩

/-- Claim C5 amended: an enriched row derives its status from the
recoverer status word list matched as whole words (default info) and
its action from the past-tense list clicked, typed, navigated,
waited, scrolled, started, opened matched as whole words (default
action); the combined row derives its last two fields the same way. -/
theorem c5_theorem (now name log : List Nat) (r : Readable) :
    enrichedFields now name log =
      [quoteWrap now, quoteWrap name,
       quoteWrap ((wordAlt [S "clicked", S "typed", S "navigated", S "waited",
         S "scrolled", S "started", S "opened"] log).getD (S "action")),
       quoteWrap ((wordAlt [S "success", S "failed", S "error", S "completed",
         S "started"] log).getD (S "info"))] ∧
    deriveStatus log = (wordAlt statusWords log).getD (S "info") ∧
    combinedFields now r =
      [quoteWrap now, quoteWrap r.workflow, csvEscape r.log,
       quoteWrap (deriveAction r.log), quoteWrap (deriveStatus r.log)] :=
  ⟨rfl, rfl, rfl⟩

/-- Claim C6 is false as stated: the emitted log text is the trimmed,
first-character-capitalized form of the appended segment, so it reads
open-parenthesis done close-parenthesis without the leading space. -/
theorem c6_counterexample :
    (humanizeJson ⟨some (S "Typing Five"), none, none, some (S "done")⟩).map
      Readable.log = some (S "(done)") ∧
    some (S "(done)") ≠ some (S " (done)") := by
  refine ⟨by decide, by decide⟩

/-- Claim C6 amended: the fragment passes the keyword gate, the
append-status rule produces the segment of a space, a parenthesis,
done and a parenthesis, the record is emitted with workflow name
Typing Five, and its final log text is that segment after log-entry
cleaning, which trims the leading space. -/
theorem c6_theorem :
    containsWorkflowKeyword
      (S "\x7b\"name\":\"Typing Five\",\"status\":\"done\"\x7d") = true ∧
    jsonReadable ⟨some (S "Typing Five"), none, none, some (S "done")⟩ =
      S " (done)" ∧
    humanizeJson ⟨some (S "Typing Five"), none, none, some (S "done")⟩ =
      some ⟨S "Typing Five", S "(done)"⟩ := by
  refine ⟨by decide, by decide, by decide⟩

/-- Claim C8 is false as stated: a workflowId field holding the empty
string is present yet falsy, so it does not overwrite the name
field. -/
theorem c8_counterexample :
    pickWorkflow ⟨some (S "A"), some [], none, none⟩ = S "A" ∧
    (S "A" : List Nat) ≠ [] := by
  refine ⟨by decide, by decide⟩

/-- Claim C8 amended: a workflowId present with a non-empty (truthy)
value takes precedence; otherwise a non-empty name is used; otherwise
the workflow name is Unknown (an empty-string field behaves as
absent). -/
theorem c8_theorem (d : JsonObj) :
    (∀ w, d.workflowId = some w → w ≠ [] → pickWorkflow d = w) ∧
    (∀ n, (d.workflowId = none ∨ d.workflowId = some []) →
      d.name = some n → n ≠ [] → pickWorkflow d = n) ∧
    ((d.workflowId = none ∨ d.workflowId = some []) →
      (d.name = none ∨ d.name = some []) → pickWorkflow d = S "Unknown") := by
  obtain ⟨nm, wf, ms, st⟩ := d
  refine ⟨?_, ?_, ?_⟩
  · intro w hw hne
    cases wf with
    | none => simp at hw
    | some i =>
      obtain rfl : i = w := by injection hw
      simp [pickWorkflow, hne]
  · intro n hw hn hne
    cases nm with
    | none => simp at hn
    | some m =>
      obtain rfl : m = n := by injection hn
      rcases hw with hw | hw <;>
        simp only at hw <;> subst hw <;> simp [pickWorkflow, hne]
  · intro hw hn
    rcases hw with hw | hw <;> rcases hn with hn | hn <;>
      simp only at hw hn <;> subst hw <;> subst hn <;> simp [pickWorkflow]

/-- Witness for the amended C8 at concrete objects: both fields
non-empty picks the workflowId, an empty workflowId next to the name
A picks A, and no fields picks Unknown. -/
theorem c8_witness :
    pickWorkflow ⟨some (S "A"), some (S "W"), none, none⟩ = S "W" ∧
    pickWorkflow ⟨some (S "A"), some [], none, none⟩ = S "A" ∧
    pickWorkflow ⟨none, none, none, none⟩ = S "Unknown" :=
  ⟨(c8_theorem _).1 (S "W") rfl (by decide),
   (c8_theorem _).2.1 (S "A") (Or.inr rfl) rfl (by decide),
   (c8_theorem _).2.2 (Or.inl rfl) (Or.inl rfl)⟩

/-- Claim C10: in both row shapes the timestamp column is the quoted
write-time clock value (now stands for new Date().toISOString() taken
when the row is built); it does not depend on the recovered record,
so no recovered time token can reach it. -/
theorem c10_theorem (now name log : List Nat) (r : Readable) :
    (enrichedFields now name log).head? = some (quoteWrap now) ∧
    (combinedFields now r).head? = some (quoteWrap now) :=
  ⟨rfl, rfl⟩

/-- A string with no double quote is unchanged by quote doubling. -/
theorem dblQuotes_of_no_quote (s : List Nat) (h : hasChar 34 s = false) :
    dblQuotes s = s := by
  induction s with
  | nil => rfl
  | cons c cs ih =>
    simp only [hasChar, Bool.or_eq_false_iff, beq_eq_false_iff_ne] at h
    simp [dblQuotes, h.1, ih h.2]

/-- The quoted-body parser on a head character that is not a quote
steps into the tail, whatever the tail's shape. -/
theorem quotedBody_cons_ne (c : Nat) (hc : ¬c = 34) (l : List Nat) :
    quotedBody (c :: l) = (quotedBody l).map (fun r => c :: r) := by
  cases l with
  | nil => simp [quotedBody, hc]
  | cons d ds => simp [quotedBody, hc]

/-- Parsing the body of a quoted field undoes quote doubling. -/
theorem quotedBody_dblQuotes (s : List Nat) :
    quotedBody (dblQuotes s ++ [34]) = some s := by
  induction s with
  | nil => rfl
  | cons c cs ih =>
    by_cases hc : c = 34
    · subst hc
      simp [dblQuotes, quotedBody, ih]
    · simp [dblQuotes, hc, quotedBody_cons_ne c hc, ih]

/-- Parsing the body of a quoted field with no embedded quote returns
it unchanged. -/
theorem quotedBody_of_no_quote (s : List Nat) (h : hasChar 34 s = false) :
    quotedBody (s ++ [34]) = some s := by
  induction s with
  | nil => rfl
  | cons c cs ih =>
    simp only [hasChar, Bool.or_eq_false_iff, beq_eq_false_iff_ne] at h
    simp [quotedBody_cons_ne c h.1, ih h.2]

/-- Claim C2 is false as stated: the workflow_name field of a combined
row is emitted by wrapping the raw name in quotes without doubling, so
for the name A-quote-B the emitted field does not parse back to the
original (it does not parse at all). -/
theorem c2_counterexample :
    (combinedFields (S "T") ⟨S "A\"B", S "log"⟩).get? 1 =
      some (quoteWrap (S "A\"B")) ∧
    csvParseField (quoteWrap (S "A\"B")) = none ∧
    (none : Option (List Nat)) ≠ some (S "A\"B") := by
  refine ⟨by decide, by decide, by decide⟩

/-- Claim C2 amended: the round-trip law holds for every value passed
through the escaping path (the log_entry field), and for the
quote-wrapped fields (timestamp, workflow_name, action, status) it
holds exactly when the value contains no double quote. -/
theorem c2_theorem :
    (∀ s : List Nat, csvParseField (csvEscape s) = some s) ∧
    (∀ s : List Nat, hasChar 34 s = false →
      csvParseField (quoteWrap s) = some s) := by
  constructor
  · intro s
    by_cases hq : needsQuotesB s = true
    · simp only [csvEscape, hq, if_pos]
      simpa [csvParseField] using quotedBody_dblQuotes s
    · have h3 : hasChar 44 s = false ∧ hasChar 10 s = false ∧
          hasChar 34 s = false := by
        simp only [needsQuotesB, Bool.or_eq_true, not_or,
          Bool.not_eq_true] at hq
        exact ⟨hq.1.1, hq.1.2, hq.2⟩
      have hd : dblQuotes s = s := dblQuotes_of_no_quote s h3.2.2
      simp only [csvEscape, hq, if_neg, ite_false, hd]
      cases s with
      | nil => rfl
      | cons c cs =>
        have hc : ¬c = 34 := by
          intro he
          have h34 := h3.2.2
          rw [he] at h34
          simp [hasChar] at h34
        simp [csvParseField, hc, h3.1, h3.2.1, h3.2.2]
  · intro s h
    simpa [quoteWrap, csvParseField] using quotedBody_of_no_quote s h

/-- Witness for the amended C2: a value with a comma, a quote and a
newline escapes and parses back to itself, and a quoteless value
wrapped in plain quotes parses back to itself. -/
theorem c2_witness :
    csvParseField (csvEscape (S "a,b\"c\nd")) = some (S "a,b\"c\nd") ∧
    hasChar 34 (S "2026-10-12T00:00:00.000Z") = false ∧
    csvParseField (quoteWrap (S "2026-10-12T00:00:00.000Z")) =
      some (S "2026-10-12T00:00:00.000Z") :=
  ⟨c2_theorem.1 (S "a,b\"c\nd"), by decide,
   c2_theorem.2 (S "2026-10-12T00:00:00.000Z") (by decide)⟩

/-- Claim C3 is false as stated: the buffer abc consists of one
maximal printable run of length 3, which qualifies, yet the carver
output of extractCleanStrings does not contain it (the run is cleaned
and gated before being emitted and the gate rejects it). -/
theorem c3_counterexample :
    claimedCarve (S "abc") = [S "abc"] ∧
    extractCleanStrings (S "abc") = [] ∧
    List.count (S "abc") (extractCleanStrings (S "abc")) = 0 := by
  refine ⟨by decide, by decide, by decide⟩

/-- Claim C3 amended: extractCleanStrings processes every maximal
printable run of length at least 3 (a trailing run at buffer end
included) exactly once, in order, emitting the cleaned form of those
runs that survive cleaning and the relevance gate; similarly
extractStringsFromBuffer emits the maximal printable-ASCII runs of
length strictly greater than 3, filtered to those containing one of
its four keywords. -/
theorem c3_theorem (buffer : List Nat) :
    extractCleanStrings buffer =
      ((runsAll printableByte buffer).filter
        (fun r => 3 ≤ r.length)).filterMap processRun ∧
    extractStringsFromBuffer buffer =
      ((runsAll printableAscii buffer).filter (fun r => 3 < r.length)).filter
        (fun s => hasSub (S "workflow") s || hasSub (S "typing") s ||
          hasSub (S "trigger") s || hasSub (S "click") s) :=
  ⟨carveGo_eq buffer [], by
    simp only [extractStringsFromBuffer, runsAll, carveSimpleGo_eq buffer []]⟩

/-- Claim C4 is false as stated: the string workflow is accepted by
the code (workflow is in the automaTerms table) but rejected by the
claimed condition, whose vocabulary does not contain workflow. -/
theorem c4_counterexample :
    isValidLogData (S "workflow") = true ∧
    claimedGate (S "workflow") = false := by
  refine ⟨by decide, by decide⟩

/-- Claim C4 amended: the gate accepts exactly the strings with an
alphabetic run of length at least 3 and at least one of: an effective
vocabulary keyword (the automaTerms table minus the two inert entries
logId and workflowId, whose upper-case letter can never occur in the
lower-cased string), a time pattern, a whole-word log-level word, or
one of the three JSON-like characters. -/
theorem c4_theorem (s : List Nat) : isValidLogData s = amendedGate s := by
  have hterms : automaTerms.any (fun t => hasSub t (lowerS s)) =
      effectiveTerms.any (fun t => hasSub t (lowerS s)) := by
    simp [automaTerms, effectiveTerms, List.any_cons, List.any_nil,
      hasSub_logId, hasSub_workflowId]
  by_cases hlen : s.length < 3
  · have ha : hasAlpha3 s = false := by
      cases h3 : hasAlpha3 s
      · rfl
      · exact absurd (hasAlpha3_length s h3) (by omega)
    simp [isValidLogData, amendedGate, hlen, ha]
  · simp [isValidLogData, amendedGate, hlen, hterms, Bool.or_assoc]

/-- Witness for the amended C4 at a concrete accepted string and a
concrete rejected one. -/
theorem c4_witness :
    isValidLogData (S "workflow") = amendedGate (S "workflow") ∧
    isValidLogData (S "zzz") = amendedGate (S "zzz") :=
  ⟨c4_theorem (S "workflow"), c4_theorem (S "zzz")⟩

/-- Claim C7 is false as stated: abc and the same string with a null
inserted differ only by embedded null bytes, yet they clean to abc
and the four-character a b space c respectively, because a null run
becomes a space, not nothing. -/
theorem c7_counterexample :
    removeNuls (S "abc") = removeNuls [97, 98, 0, 99] ∧
    cleanExtractedString (S "abc") ≠ cleanExtractedString [97, 98, 0, 99] := by
  refine ⟨by decide, by decide⟩

/-- Claim C7 amended: cleaning identifies two candidate strings that
differ only in the lengths of their (non-empty) maximal null runs:
whenever collapsing every null run to a single null equalizes them,
their cleaned forms agree. -/
theorem c7_theorem (s t : List Nat) (h : collapseNuls s = collapseNuls t) :
    cleanExtractedString s = cleanExtractedString t := by
  have hst : nulsToSpace s = nulsToSpace t := by
    calc nulsToSpace s = nulsGo false (collapseNulsGo false s) :=
          (nulsGo_collapse s false).symm
      _ = nulsGo false (collapseNulsGo false t) := by
          simpa [collapseNuls] using congrArg (nulsGo false) h
      _ = nulsToSpace t := nulsGo_collapse t false
  simp only [cleanExtractedString, hst]

/-- Witness for the amended C7: a one-null run and a two-null run at
the same position clean to the same string. -/
theorem c7_witness :
    collapseNuls [97, 98, 0, 99] = collapseNuls [97, 98, 0, 0, 99] ∧
    cleanExtractedString [97, 98, 0, 99] =
      cleanExtractedString [97, 98, 0, 0, 99] :=
  ⟨by decide, c7_theorem _ _ (by decide)⟩

/-- Claim C9: each of the three discovery misses makes run return
normally with no file written, and the process exit code is 0. -/
theorem c9_theorem (jp : List Nat → Option (JsonObj × List Nat)) (w : WorldM)
    (now dateStr : List Nat)
    (h : findChromeProfiles w = [] ∨
      findIndexedDBDirs (findChromeProfiles w) = [] ∨
      findAutomaExtensions (findIndexedDBDirs (findChromeProfiles w)) = []) :
    run jp w now dateStr = RunOut.ok [] ∧
    exitCode (run jp w now dateStr) = 0 := by
  have hrun : run jp w now dateStr = RunOut.ok [] := by
    rcases h with h | h | h
    · simp [run, h]
    · by_cases hp : findChromeProfiles w = [] <;> simp [run, hp, h]
    · by_cases hp : findChromeProfiles w = []
      · simp [run, hp]
      · by_cases hi : findIndexedDBDirs (findChromeProfiles w) = [] <;>
          simp [run, hp, hi, h]
  exact ⟨hrun, by rw [hrun]; rfl⟩

/-- Witness for C9 at a concrete world with no Chrome profile. -/
theorem c9_witness :
    run (fun _ => none) ⟨none⟩ [] [] = RunOut.ok [] ∧
    exitCode (run (fun _ => none) ⟨none⟩ [] []) = 0 :=
  c9_theorem (fun _ => none) ⟨none⟩ [] [] (Or.inl rfl)
